import Mathlib

/-!
Verification of the switchAILocal example programs.

This file gives a shallow embedding of the three programs that the claims
are about, and settles each claim against it:

* `examples/agent/bridge-executor/executor.py` — the WebSocket relay client
  `execute_http_request`: its receive loop (lines 48-92) is embedded as a
  pure function over the sequence of inbound events, together with the
  inter-arrival gap (in seconds) before each event, which drives the
  `asyncio.wait_for(..., timeout=30)` per-receive timeout.
* `examples/agent/active-coder/coder.py` — the fenced-code-block extractor
  `extract_code` (the regex search), the post-extraction branch of `main`,
  and the confirmation gate of `execute_code`.
* `plugins/cortex-router/skills/skill-creator/scripts/quick_validate.py` —
  `validate_skill`, embedded over an abstract directory state; the PyYAML
  parser (an external library, not part of this repository) is a parameter
  of the embedding.
-/

namespace SwitchAI

/-! ### Embedding of executor.py (`execute_http_request`, lines 48-92)

The loop repeatedly awaits `ws.recv()` under `asyncio.wait_for(..., timeout=30)`.
We model the inbound side of the connection as a list of events, each paired
with the number of seconds that pass between the previous receive and the
moment the event becomes available.  A gap larger than the timeout means
`wait_for` raises `asyncio.TimeoutError` before the event is seen; an
exhausted list means nothing further ever arrives, so the pending receive
times out as well.  `websockets` raising `ConnectionClosed` during a receive
is an event of its own. -/

/-- The literal `timeout=30` of `asyncio.wait_for(ws.recv(), timeout=30)`
(executor.py line 49). -/
def recvTimeout : Nat := 30

/-- The decoded payload of an `http_response` envelope: the fields the code
touches (`status` via `payload.get("status", "N/A")`, `body` via
`payload.get("body", "")`) plus the header multimap it carries along.  A
missing `status` key is `none`; a missing body collapses into `""`. -/
structure RespPayload where
  status : Option Nat
  headers : List (String × List String)
  body : String
deriving DecidableEq, Repr

/-- The decoded body of an inbound envelope, one constructor per
`msg_type` branch of the loop.  Fields read through `payload.get` with a
meaningful default are `Option`s. -/
inductive MsgBody where
  | httpResponse (p : RespPayload)
  | streamStart (status : Option Nat)
  | streamChunk (data : String)
  | streamEnd
  | errorMsg (err : Option String)
  | pong
  | other (typeTag : Option String)
deriving DecidableEq, Repr

/-- One inbound occurrence on the socket: either a decoded envelope
(carrying its `id` field, which the code reads into `msg_id`), or the
connection closing, which makes the pending `ws.recv()` raise
`websockets.exceptions.ConnectionClosed`. -/
inductive RecvEvt where
  | msg (id : String) (body : MsgBody)
  | closed (reason : String)
deriving DecidableEq, Repr

/-- One `print` the loop or its exception handlers perform, by call site.
`chunkOut` is the `print(chunk, end="", flush=True)` of the `stream_chunk`
branch; the others carry the data interpolated into their f-string. -/
inductive OutEvt where
  | respHeader (status : Option Nat)
  | respBody (body : String)
  | streamStarted (status : Option Nat)
  | chunkOut (data : String)
  | streamEnded
  | remoteErrDiag (err : String)
  | unknownDiag (typeTag : Option String)
  | timeoutDiag
  | connClosedDiag (reason : String)
deriving DecidableEq, Repr

/-- The text each `OutEvt` call site prints (executor.py lines 57-90);
`respBody` stands for the body display of lines 59-62, which shows the raw
body (pretty-printed when it parses as JSON). -/
def render : OutEvt → String
  | .respHeader (some n) => "📨 Response (Status: " ++ toString n ++ "):"
  | .respHeader none => "📨 Response (Status: N/A):"
  | .respBody b => b
  | .streamStarted st => "📡 Stream started (Status: " ++ toString (st.getD 200) ++ ")"
  | .chunkOut d => d
  | .streamEnded => "\n📡 Stream ended."
  | .remoteErrDiag e => "❌ Error: " ++ e
  | .unknownDiag t => "⚠️ Unknown message type: " ++ (t.getD "None")
  | .timeoutDiag => "❌ Timeout waiting for response"
  | .connClosedDiag r => "❌ Connection closed: " ++ r

/-- What one invocation of `execute_http_request` produces: the trace of
prints it performs and the value it returns to its caller (`payload` on the
`http_response` branch, `None` everywhere else — the fall-through of the
exception handlers included). -/
structure RunOut where
  trace : List OutEvt
  ret : Option RespPayload
deriving DecidableEq, Repr

/-- The receive loop of `execute_http_request` (executor.py lines 48-92),
from the moment the request has been sent.  `reqId` is the freshly
generated `request_id`; the loop stores the inbound `id` into `msg_id` but
never consults either.  Each list entry is processed by one
`await asyncio.wait_for(ws.recv(), timeout=30)`: if its gap exceeds
`recvTimeout`, the wait raises `asyncio.TimeoutError`, the handler on line
89-90 prints the timeout diagnostic and the function returns `None`.  An
exhausted list is a receive that never completes, which times out the same
way. -/
def execute_http_request (reqId : String) : List (Nat × RecvEvt) → RunOut
  | [] => ⟨[.timeoutDiag], none⟩
  | (g, ev) :: rest =>
    if recvTimeout < g then ⟨[.timeoutDiag], none⟩
    else
      match ev with
      | .closed r => ⟨[.connClosedDiag r], none⟩
      | .msg _ b =>
        match b with
        | .httpResponse p => ⟨[.respHeader p.status, .respBody p.body], some p⟩
        | .streamStart st =>
          let r := execute_http_request reqId rest
          ⟨.streamStarted st :: r.trace, r.ret⟩
        | .streamChunk d =>
          let r := execute_http_request reqId rest
          ⟨.chunkOut d :: r.trace, r.ret⟩
        | .streamEnd => ⟨[.streamEnded], none⟩
        | .errorMsg e => ⟨[.remoteErrDiag (e.getD "Unknown error")], none⟩
        | .pong => execute_http_request reqId rest
        | .other t =>
          let r := execute_http_request reqId rest
          ⟨.unknownDiag t :: r.trace, r.ret⟩

/-- Concatenation of a list of strings, in order. -/
def concatAll : List String → String
  | [] => ""
  | s :: rest => s ++ concatAll rest

/-- The text a watcher of standard output sees as the streamed body: the
concatenation of the `print(chunk, end="")` emissions, in order. -/
def streamedText (tr : List OutEvt) : String :=
  concatAll (tr.filterMap fun e =>
    match e with
    | .chunkOut d => some d
    | _ => none)

example :
    execute_http_request "A"
      [(0, .msg "A" (.streamStart (some 200))), (0, .msg "A" (.streamChunk "he")),
       (0, .msg "A" (.streamChunk "llo")), (0, .msg "A" .streamEnd)] =
    ⟨[.streamStarted (some 200), .chunkOut "he", .chunkOut "llo", .streamEnded], none⟩ := rfl

example :
    streamedText [.streamStarted none, .chunkOut "he", .chunkOut "llo", .streamEnded] = "hello" := by
  decide

/-! ### Claim theorems about executor.py -/

lemma run_chunkSeq (reqId id : String) (cs : List String) :
    execute_http_request reqId
      (cs.map (fun c => (0, RecvEvt.msg id (.streamChunk c))) ++ [(0, RecvEvt.msg id .streamEnd)]) =
    ⟨cs.map OutEvt.chunkOut ++ [.streamEnded], none⟩ := by
  induction cs with
  | nil => rfl
  | cons c cs ih => simp [execute_http_request, recvTimeout, ih]

lemma streamedText_chunks (cs : List String) :
    streamedText (cs.map OutEvt.chunkOut ++ [.streamEnded]) = concatAll cs := by
  induction cs with
  | nil => rfl
  | cons c cs ih => simpa [streamedText, concatAll] using congrArg (c ++ ·) ih

example : streamedText [.streamStarted none, .chunkOut "a"] = "a" := by decide

/-- C1 counterexample: on a `stream_start`, two `stream_chunk`s, `stream_end`
exchange, the call does not yield any body to its caller — it returns `None`
(executor.py line 74), so in particular no payload whose body is the
concatenation of the chunks. -/
theorem c1_counterexample :
    ¬ ∃ p : RespPayload,
        (execute_http_request "A"
          [(0, .msg "A" (.streamStart (some 200))), (0, .msg "A" (.streamChunk "ab")),
           (0, .msg "A" (.streamChunk "cd")), (0, .msg "A" .streamEnd)]).ret = some p ∧
        p.body = "ab" ++ "cd" := by
  rintro ⟨p, hp, -⟩
  rw [show (execute_http_request "A"
      [(0, .msg "A" (.streamStart (some 200))), (0, .msg "A" (.streamChunk "ab")),
       (0, .msg "A" (.streamChunk "cd")), (0, .msg "A" .streamEnd)]).ret = none by decide] at hp
  exact Option.noConfusion hp

/-- C1 amended: a `stream_start` → `stream_chunk`×N → `stream_end` sequence
makes the call print the N chunk payloads in arrival order — so the
caller-visible streamed text on standard output equals their concatenation —
but the call itself returns `None` to its caller, not the assembled body. -/
theorem c1_amended (reqId id : String) (st : Option Nat) (chunks : List String) :
    (execute_http_request reqId
        ((0, RecvEvt.msg id (.streamStart st)) ::
          (chunks.map (fun c => (0, RecvEvt.msg id (.streamChunk c))) ++
            [(0, RecvEvt.msg id .streamEnd)]))).ret = none ∧
    streamedText (execute_http_request reqId
        ((0, RecvEvt.msg id (.streamStart st)) ::
          (chunks.map (fun c => (0, RecvEvt.msg id (.streamChunk c))) ++
            [(0, RecvEvt.msg id .streamEnd)]))).trace = concatAll chunks := by
  have h := run_chunkSeq reqId id chunks
  constructor
  · simp [execute_http_request, recvTimeout, h]
  · simp only [execute_http_request, recvTimeout, show ¬ (30 < 0) by decide, if_neg, h]
    simpa [streamedText] using streamedText_chunks chunks

def c2p0 : RespPayload := ⟨some 200, [], "first"⟩

def c2p1 : RespPayload := ⟨some 201, [], "second"⟩

/-- C2 counterexample: the pending exchange has id `"A"`, and an
`http_response` envelope with the unmatched id `"B"` arrives first.  The
claim says it is discarded and cannot be the exchange's outcome; the code
never compares `msg_id` with `request_id` (executor.py line 53 reads the id
and nothing uses it), so the unmatched terminal resolves the call. -/
theorem c2_counterexample :
    (execute_http_request "A"
      [(0, .msg "B" (.httpResponse c2p0)), (0, .msg "A" (.httpResponse c2p1))]).ret = some c2p0 ∧
    c2p0 ≠ c2p1 := ⟨by decide, by decide⟩

/-- Rewriting every inbound envelope's id field by an arbitrary function. -/
def rewriteIds (f : String → String) : List (Nat × RecvEvt) → List (Nat × RecvEvt) :=
  List.map fun ge =>
    match ge with
    | (g, RecvEvt.msg i b) => (g, RecvEvt.msg (f i) b)
    | (g, RecvEvt.closed r) => (g, RecvEvt.closed r)

/-- C2 amended: the executor never consults ids — its trace and its result
are invariant under arbitrary rewriting of the inbound envelopes' ids.  In
particular a terminal message whose id matches no pending exchange is not
discarded: it is processed exactly as a matching one would be. -/
theorem c2_amended (reqId : String) (f : String → String) (evts : List (Nat × RecvEvt)) :
    execute_http_request reqId (rewriteIds f evts) = execute_http_request reqId evts := by
  simp only [rewriteIds]
  induction evts with
  | nil => rfl
  | cons e rest ih =>
    obtain ⟨g, ev⟩ := e
    by_cases hg : recvTimeout < g
    · cases ev <;> simp [execute_http_request, hg]
    · cases ev with
      | closed r => simp [execute_http_request, hg]
      | msg i b => cases b <;> simp [execute_http_request, hg, ih]

/-- Claim-side measure for C3: seconds elapsing from the send until the
first terminal-typed envelope (`http_response`, `stream_end`, `error`) or
connection close becomes available. -/
def MsgBody.isTerminalType : MsgBody → Bool
  | .httpResponse _ => true
  | .streamEnd => true
  | .errorMsg _ => true
  | _ => false

def elapsedToTerminal : List (Nat × RecvEvt) → Nat
  | [] => 0
  | (g, RecvEvt.closed _) :: _ => g
  | (g, RecvEvt.msg _ b) :: rest => if b.isTerminalType then g else g + elapsedToTerminal rest

def c3p : RespPayload := ⟨some 200, [], "late success"⟩

def c3Seq : List (Nat × RecvEvt) :=
  [(20, .msg "A" (.streamStart (some 200))), (20, .msg "A" (.streamChunk "x")),
   (20, .msg "A" (.httpResponse c3p))]

/-- C3 counterexample: on `c3Seq` the first terminal message only becomes
available 60 seconds after the send — the claimed 30-second per-call
deadline elapses long before any terminal message arrives — yet the call
resolves successfully, because `timeout=30` on line 49 bounds each
individual receive, not the call. -/
theorem c3_counterexample :
    recvTimeout < elapsedToTerminal c3Seq ∧
    (execute_http_request "A" c3Seq).ret = some c3p := ⟨by decide, by decide⟩

/-- C3 amended: the default timeout constant is 30 seconds, but it bounds
each individual receive: total silence times the call out with a timeout
error, and any event that becomes available after a gap of more than 30
seconds is never seen — the call behaves exactly as if the connection had
gone silent at that point.  A call whose messages each arrive within 30
seconds can therefore succeed even though more than 30 seconds pass in
total before its terminal message. -/
theorem c3_amended :
    recvTimeout = 30 ∧
    (∀ reqId : String, execute_http_request reqId [] = ⟨[.timeoutDiag], none⟩) ∧
    (∀ (reqId : String) (pre : List (Nat × RecvEvt)) (g : Nat) (ev : RecvEvt)
        (rest : List (Nat × RecvEvt)), recvTimeout < g →
      execute_http_request reqId (pre ++ (g, ev) :: rest) = execute_http_request reqId pre) := by
  refine ⟨rfl, fun _ => rfl, ?_⟩
  intro reqId pre g ev rest hg
  induction pre with
  | nil => cases ev <;> simp [execute_http_request, hg]
  | cons e pre ih =>
    obtain ⟨g', ev'⟩ := e
    by_cases hg' : recvTimeout < g'
    · simp [execute_http_request, hg']
    · cases ev' with
      | closed r => simp [execute_http_request, hg']
      | msg i b => cases b <;> simp [execute_http_request, hg', ih]

theorem c3_amended_witness :
    execute_http_request "A" ([(0, .msg "A" (.streamChunk "x"))] ++ (31, .msg "A" .streamEnd) :: []) =
      execute_http_request "A" [(0, .msg "A" (.streamChunk "x"))] :=
  c3_amended.2.2 "A" [(0, .msg "A" (.streamChunk "x"))] 31 (.msg "A" .streamEnd) [] (by decide)

/-- C4 counterexample: the value returned to the caller is `None` alike for
a local timeout, a remote-reported `error` envelope, and a connection
close — the outcome handed to the caller does not distinguish the three
error kinds. -/
theorem c4_counterexample :
    (execute_http_request "A" []).ret =
      (execute_http_request "A" [(0, .msg "A" (.errorMsg (some "upstream failure")))]).ret ∧
    (execute_http_request "A" [(0, .msg "A" (.errorMsg (some "upstream failure")))]).ret =
      (execute_http_request "A" [(0, .closed "abnormal closure")]).ret ∧
    (execute_http_request "A" []).ret = none := ⟨by decide, by decide, by decide⟩

/-- C4 amended: each invocation produces exactly one outcome; a success
returns the response payload, while timeout, remote-reported failure and
connection loss all return `None` to the caller and are told apart only by
the diagnostic each path prints, which differ pairwise. -/
theorem c4_amended (reqId i e c : String) (p : RespPayload) :
    execute_http_request reqId [] = ⟨[.timeoutDiag], none⟩ ∧
    execute_http_request reqId [(0, .msg i (.errorMsg (some e)))] = ⟨[.remoteErrDiag e], none⟩ ∧
    execute_http_request reqId [(0, .closed c)] = ⟨[.connClosedDiag c], none⟩ ∧
    execute_http_request reqId [(0, .msg i (.httpResponse p))] =
      ⟨[.respHeader p.status, .respBody p.body], some p⟩ ∧
    OutEvt.timeoutDiag ≠ OutEvt.remoteErrDiag e ∧
    OutEvt.timeoutDiag ≠ OutEvt.connClosedDiag c ∧
    OutEvt.remoteErrDiag e ≠ OutEvt.connClosedDiag c :=
  ⟨rfl, rfl, rfl, rfl, by simp, by simp, by simp⟩

/-- C5: an exchange whose first and only inbound message is an
`http_response` (no preceding `stream_start`) resolves directly with that
response's payload — status, headers and body — as long as it arrives
within the receive timeout. -/
theorem c5_single_response (reqId i : String) (p : RespPayload) (g : Nat)
    (hg : g ≤ recvTimeout) :
    execute_http_request reqId [(g, .msg i (.httpResponse p))] =
      ⟨[.respHeader p.status, .respBody p.body], some p⟩ := by
  simp [execute_http_request, Nat.not_lt.mpr hg]

theorem c5_witness :
    execute_http_request "req-1"
      [(0, .msg "req-1" (.httpResponse ⟨some 200, [("Content-Type", ["application/json"])], "ok"⟩))] =
      ⟨[.respHeader (some 200), .respBody "ok"],
        some ⟨some 200, [("Content-Type", ["application/json"])], "ok"⟩⟩ :=
  c5_single_response "req-1" "req-1" ⟨some 200, [("Content-Type", ["application/json"])], "ok"⟩ 0
    (by decide)

def c6p : RespPayload := ⟨some 200, [], "saved by the pong"⟩

/-- C6 counterexample: the response becomes available 40 seconds after the
previous receive either way.  With a pong arriving in between, each
individual wait stays under 30 seconds and the call succeeds; with the pong
absent the wait exceeds 30 seconds and the call times out — observing a
pong frame changed the exchange's eventual result. -/
theorem c6_counterexample :
    (execute_http_request "A"
      [(20, .msg "A" .pong), (20, .msg "A" (.httpResponse c6p))]).ret = some c6p ∧
    (execute_http_request "A" [(40, .msg "A" (.httpResponse c6p))]).ret = none :=
  ⟨by decide, by decide⟩

/-- C6 amended: a pong envelope is ignored — it prints nothing and removing
it (keeping every other event's inter-arrival gap) leaves the whole trace
and result unchanged; but, like any received frame, it restarts the
30-second receive timeout, so a pong arriving during a long silence can
prevent a timeout and thereby change the exchange's eventual result. -/
theorem c6_amended (reqId i : String) (g : Nat) (xs ys : List (Nat × RecvEvt))
    (hg : g ≤ recvTimeout) :
    execute_http_request reqId (xs ++ (g, .msg i .pong) :: ys) =
      execute_http_request reqId (xs ++ ys) := by
  induction xs with
  | nil => simp [execute_http_request, Nat.not_lt.mpr hg]
  | cons e xs ih =>
    obtain ⟨g', ev'⟩ := e
    by_cases hg' : recvTimeout < g'
    · simp [execute_http_request, hg']
    · cases ev' with
      | closed r => simp [execute_http_request, hg']
      | msg j b => cases b <;> simp [execute_http_request, hg', ih]

theorem c6_amended_witness :
    execute_http_request "A" ([] ++ (0, .msg "B" .pong) :: [(0, .msg "A" .streamEnd)]) =
      execute_http_request "A" ([] ++ [(0, .msg "A" .streamEnd)]) :=
  c6_amended "A" "B" 0 [] [(0, .msg "A" .streamEnd)] (by decide)

/-! ### Embedding of coder.py

`extract_code` (lines 51-57) runs
`re.search(r"(three backticks)[Pp]ython[3]?\s*(newline)(.*?)(newline)(three backticks)", llm_response, re.DOTALL)`
and returns group 1, or `None` when there is no match.  The embedding below
implements that search character by character: leftmost match start; after
the opening fence and tag, the greedy `\s*` followed by `(newline)` picks the
latest newline inside the whitespace run that still lets the rest match;
the lazy `(.*?)` stops at the first later `(newline)(three backticks)`. -/

/-- The backtick character. -/
def tickChar : Char := Char.ofNat 96

/-- The characters Python's `\s` (and `str.strip`/`str.isspace`) matches,
restricted to ASCII. -/
def pyWs (c : Char) : Bool :=
  c == ' ' || c == '\t' || c == '\n' || c == '\x0b' || c == '\x0c' || c == '\r'

def startsTicks : List Char → Bool
  | a :: b :: c :: _ => a == tickChar && b == tickChar && c == tickChar
  | _ => false

/-- Consume the opening fence (three backticks). -/
def stripTicks : List Char → Option (List Char)
  | a :: b :: c :: rest =>
    if a == tickChar && b == tickChar && c == tickChar then some rest else none
  | _ => none

/-- Consume the language tag `[Pp]ython[3]?`.  When a `3` follows, failing
later with it consumed can never be rescued by leaving it (the optional
branch would have to match `\s*\n` against the `3`), so consuming it when
present is exactly the regex's behavior. -/
def stripTag : List Char → Option (List Char)
  | p :: y :: t :: h :: o :: n :: rest =>
    if (p == 'p' || p == 'P') && y == 'y' && t == 't' && h == 'h' && o == 'o' && n == 'n' then
      some (match rest with
        | '3' :: r => r
        | _ => rest)
    else none
  | _ => none

/-- The lazy `(.*?)` followed by a newline and the closing fence: the code
group ends at the first occurrence of `(newline)(three backticks)`. -/
def contentTo : List Char → Option (List Char)
  | [] => none
  | c :: cs =>
    if c == '\n' && startsTicks cs then some []
    else (contentTo cs).map (c :: ·)

/-- All ways to read `\s*` followed by a newline at the head of the input:
one candidate continuation per newline inside the leading whitespace run,
in textual order. -/
def wsNlCandidates : List Char → List (List Char)
  | [] => []
  | c :: cs =>
    if c == '\n' then cs :: wsNlCandidates cs
    else if pyWs c then wsNlCandidates cs
    else []

def pickContent : List (List Char) → Option (List Char)
  | [] => none
  | cand :: rest =>
    match contentTo cand with
    | some code => some code
    | none => pickContent rest

/-- Match the whole pattern anchored at the head of `l`; greedy `\s*` means
the latest newline candidate is tried first. -/
def matchAt (l : List Char) : Option (List Char) :=
  match stripTicks l with
  | none => none
  | some r1 =>
    match stripTag r1 with
    | none => none
    | some r2 => pickContent (wsNlCandidates r2).reverse

/-- `re.search`: try every start position from the left. -/
def searchFence : List Char → Option (List Char)
  | [] => none
  | c :: cs =>
    match matchAt (c :: cs) with
    | some code => some code
    | none => searchFence cs

/-- `extract_code` of coder.py (lines 51-57). -/
def extract_code (s : String) : Option String :=
  (searchFence s.data).map String.mk

/-- The post-extraction branch of `main` (coder.py lines 104-112): a falsy
extraction result (`None`, or the empty string) prints the raw response and
exits without executing; otherwise `execute_code` is reached. -/
inductive CoderStep where
  | printRaw
  | execPath (code : String)
deriving DecidableEq, Repr

def coderMain (response : String) : CoderStep :=
  match extract_code response with
  | none => .printRaw
  | some c => if c = "" then .printRaw else .execPath c

/-- The single fenced-block flavor the pattern knows: an opening fence of
three backticks, a `python` tag (`p` possibly capitalized, optionally
followed by `3`), whitespace up to a newline, the code, and a newline
followed by a closing fence of three backticks, anywhere in the text. -/
def tagOK (tag : List Char) : Prop :=
  tag = "python".data ∨ tag = "Python".data ∨ tag = "python3".data ∨ tag = "Python3".data

def pythonFence (s : String) : Prop :=
  ∃ pre tag ws code post : List Char,
    s.data =
      pre ++ [tickChar, tickChar, tickChar] ++ tag ++ ws ++ ['\n'] ++ code ++
        ['\n', tickChar, tickChar, tickChar] ++ post ∧
    tagOK tag ∧ ∀ c ∈ ws, pyWs c = true

example : extract_code "```python\nprint(1)\n```" = some "print(1)" := by decide

example : extract_code "text before\n```Python3 \nx = 1\n```\nafter" = some "x = 1" := by decide

example : extract_code "```py\nprint(1)\n```" = none := by decide

example : extract_code "``` python\nprint(1)\n```" = none := by decide

example : extract_code "```PYTHON\nx\n```" = none := by decide

example : extract_code "```python\nx```" = none := by decide

/-! ### Claim theorems about coder.py -/

lemma startsTicks_sound {l : List Char} (h : startsTicks l = true) :
    ∃ rest, l = tickChar :: tickChar :: tickChar :: rest := by
  unfold startsTicks at h
  split at h
  · simp only [Bool.and_eq_true, beq_iff_eq] at h
    obtain ⟨⟨rfl, rfl⟩, rfl⟩ := h
    exact ⟨_, rfl⟩
  · simp at h

lemma stripTicks_sound {l r : List Char} (h : stripTicks l = some r) :
    l = tickChar :: tickChar :: tickChar :: r := by
  unfold stripTicks at h
  split at h
  · split at h
    · next hc =>
      simp only [Bool.and_eq_true, beq_iff_eq] at hc
      obtain ⟨⟨rfl, rfl⟩, rfl⟩ := hc
      injection h with h
      rw [h]
    · simp at h
  · simp at h

lemma stripTag_sound {l r : List Char} (h : stripTag l = some r) :
    ∃ tag, tagOK tag ∧ l = tag ++ r := by
  unfold stripTag at h
  split at h
  · next p y t u o n rest =>
    split at h
    · next hc =>
      simp only [Bool.and_eq_true, Bool.or_eq_true, beq_iff_eq] at hc
      obtain ⟨⟨⟨⟨⟨hp, rfl⟩, rfl⟩, rfl⟩, rfl⟩, rfl⟩ := hc
      injection h with h
      revert h
      split
      · next r3 _ =>
        intro h
        subst h
        rcases hp with rfl | rfl
        · exact ⟨['p', 'y', 't', 'h', 'o', 'n', '3'], by unfold tagOK; decide, rfl⟩
        · exact ⟨['P', 'y', 't', 'h', 'o', 'n', '3'], by unfold tagOK; decide, rfl⟩
      · intro h
        subst h
        rcases hp with rfl | rfl
        · exact ⟨['p', 'y', 't', 'h', 'o', 'n'], by unfold tagOK; decide, rfl⟩
        · exact ⟨['P', 'y', 't', 'h', 'o', 'n'], by unfold tagOK; decide, rfl⟩
    · simp at h
  · simp at h

lemma contentTo_sound : ∀ {l code : List Char}, contentTo l = some code →
    ∃ rest, l = code ++ '\n' :: tickChar :: tickChar :: tickChar :: rest := by
  intro l
  induction l with
  | nil => intro code h; simp [contentTo] at h
  | cons c cs ih =>
    intro code h
    unfold contentTo at h
    split at h
    · next hc =>
      simp only [Bool.and_eq_true, beq_iff_eq] at hc
      obtain ⟨rfl, hst⟩ := hc
      injection h with h
      subst h
      obtain ⟨rest, rfl⟩ := startsTicks_sound hst
      exact ⟨rest, rfl⟩
    · rw [Option.map_eq_some'] at h
      obtain ⟨code', hc', rfl⟩ := h
      obtain ⟨rest, rfl⟩ := ih hc'
      exact ⟨rest, rfl⟩

lemma wsNlCandidates_sound : ∀ {l cand : List Char}, cand ∈ wsNlCandidates l →
    ∃ w, (∀ c ∈ w, pyWs c = true) ∧ l = w ++ '\n' :: cand := by
  intro l
  induction l with
  | nil => intro cand h; simp [wsNlCandidates] at h
  | cons c cs ih =>
    intro cand h
    unfold wsNlCandidates at h
    split at h
    · next hc =>
      rw [beq_iff_eq] at hc
      subst hc
      rcases List.mem_cons.mp h with rfl | h'
      · exact ⟨[], by simp, rfl⟩
      · obtain ⟨w, hw, rfl⟩ := ih h'
        refine ⟨'\n' :: w, ?_, rfl⟩
        intro x hx
        rcases List.mem_cons.mp hx with rfl | hx
        · decide
        · exact hw x hx
    · split at h
      · next hws =>
        obtain ⟨w, hw, rfl⟩ := ih h
        refine ⟨c :: w, ?_, rfl⟩
        intro x hx
        rcases List.mem_cons.mp hx with rfl | hx
        · exact hws
        · exact hw x hx
      · simp at h

lemma pickContent_sound : ∀ {cands : List (List Char)} {code : List Char},
    pickContent cands = some code → ∃ cand ∈ cands, contentTo cand = some code := by
  intro cands
  induction cands with
  | nil => intro code h; simp [pickContent] at h
  | cons cand rest ih =>
    intro code h
    unfold pickContent at h
    cases heq : contentTo cand with
    | some code' =>
      rw [heq] at h
      injection h with h
      subst h
      exact ⟨cand, List.mem_cons_self _ _, heq⟩
    | none =>
      rw [heq] at h
      obtain ⟨c', hc', he⟩ := ih h
      exact ⟨c', List.mem_cons_of_mem _ hc', he⟩

lemma matchAt_sound {l code : List Char} (h : matchAt l = some code) :
    ∃ tag ws rest, tagOK tag ∧ (∀ c ∈ ws, pyWs c = true) ∧
      l = tickChar :: tickChar :: tickChar ::
        (tag ++ (ws ++ '\n' :: (code ++ '\n' :: tickChar :: tickChar :: tickChar :: rest))) := by
  unfold matchAt at h
  cases h1 : stripTicks l with
  | none => rw [h1] at h; exact absurd h (by simp)
  | some r1 =>
    rw [h1] at h
    dsimp only at h
    cases h2 : stripTag r1 with
    | none => rw [h2] at h; exact absurd h (by simp)
    | some r2 =>
      rw [h2] at h
      dsimp only at h
      obtain ⟨cand, hcand, hct⟩ := pickContent_sound h
      rw [List.mem_reverse] at hcand
      obtain ⟨w, hw, hr2⟩ := wsNlCandidates_sound hcand
      obtain ⟨rest, hcand_eq⟩ := contentTo_sound hct
      obtain ⟨tag, htag, hr1⟩ := stripTag_sound h2
      refine ⟨tag, w, rest, htag, hw, ?_⟩
      rw [stripTicks_sound h1, hr1, hr2, hcand_eq]

lemma searchFence_sound : ∀ {l code : List Char}, searchFence l = some code →
    ∃ pre suffix, l = pre ++ suffix ∧ matchAt suffix = some code := by
  intro l
  induction l with
  | nil => intro code h; simp [searchFence] at h
  | cons c cs ih =>
    intro code h
    unfold searchFence at h
    cases h1 : matchAt (c :: cs) with
    | some code' =>
      rw [h1] at h
      injection h with h
      subst h
      exact ⟨[], c :: cs, rfl, h1⟩
    | none =>
      rw [h1] at h
      obtain ⟨pre, suffix, rfl, hm⟩ := ih h
      exact ⟨c :: pre, suffix, rfl, hm⟩

lemma extract_sound {s c : String} (h : extract_code s = some c) : pythonFence s := by
  unfold extract_code at h
  rw [Option.map_eq_some'] at h
  obtain ⟨code, hs, rfl⟩ := h
  obtain ⟨pre, suffix, hsd, hm⟩ := searchFence_sound hs
  obtain ⟨tag, ws, rest, htag, hws, hsuf⟩ := matchAt_sound hm
  refine ⟨pre, tag, ws, code, rest, ?_, htag, hws⟩
  rw [hsd, hsuf]
  simp [List.append_assoc]

lemma fence_length {s : String} (h : pythonFence s) : 14 ≤ s.data.length := by
  obtain ⟨pre, tag, ws, code, post, heq, htag, -⟩ := h
  have ht : 6 ≤ tag.length := by
    rcases htag with rfl | rfl | rfl | rfl <;> decide
  rw [heq]
  simp [List.length_append]
  omega

/-- C7: the extraction pattern recognizes the single python-fenced flavor
described by `pythonFence` (triple-backtick fence, `[Pp]ython[3]?` tag,
newline-delimited).  On any response with no such block, extraction yields
no code and `main` falls back to printing the raw response instead of
reaching `execute_code` (coder.py lines 104-109). -/
theorem c7_single_flavor (s : String) (h : ¬ pythonFence s) :
    extract_code s = none ∧ coderMain s = CoderStep.printRaw := by
  have he : extract_code s = none := by
    cases hx : extract_code s with
    | none => rfl
    | some c => exact absurd (extract_sound hx) h
  exact ⟨he, by simp [coderMain, he]⟩

theorem c7_witness :
    extract_code "hello" = none ∧ coderMain "hello" = CoderStep.printRaw :=
  c7_single_flavor "hello" (fun hf => absurd (fence_length hf) (by decide))

/-- Whether `execute_code` (coder.py lines 59-78) reaches the
`subprocess.run` call, as decided by the confirmation prompt. -/
inductive ExecOutcome where
  | cancelled
  | ran (code : String)
deriving DecidableEq, Repr

/-- Python's `str.lower()` (ASCII case folding). -/
def pyLower (s : String) : String := String.mk (s.data.map Char.toLower)

/-- The confirmation gate of `execute_code` (coder.py lines 66-69): the
subprocess runs only when `confirm.lower() == 'y'`; otherwise the function
prints a cancellation notice and returns. -/
def execute_code (code confirm : String) : ExecOutcome :=
  if pyLower confirm ≠ "y" then .cancelled else .ran code

/-- C9: `execute_code` invokes the subprocess exactly when the lowercased
confirmation input equals `"y"`; every other input makes it return as
cancelled, spawning nothing. -/
theorem c9_confirm_gate (code confirm : String) :
    (execute_code code confirm = ExecOutcome.ran code ↔ pyLower confirm = "y") ∧
    (execute_code code confirm = ExecOutcome.cancelled ↔ pyLower confirm ≠ "y") := by
  unfold execute_code
  by_cases h : pyLower confirm = "y" <;> simp [h]

example : execute_code "print(1)" "Y" = ExecOutcome.ran "print(1)" := by decide

example : execute_code "print(1)" "" = ExecOutcome.cancelled := by decide

example : execute_code "print(1)" "yes" = ExecOutcome.cancelled := by decide

/-! ### Embedding of quick_validate.py (`validate_skill`, lines 27-181)

The function inspects a directory and the text of its `SKILL.md`.  The
directory is abstracted into the fields the code queries; the file content
is carried verbatim.  `yaml.safe_load` comes from PyYAML, an external
library, so the embedding takes the YAML parser as a parameter returning
either a parse error, a non-dictionary document, or a dictionary whose
values are classified as the code classifies them (`str`, `None`, or some
other type with its type name). -/

/-- A value in the parsed frontmatter dictionary, as far as the code
inspects it: a string, YAML `null` (Python `None`, whose type name is
`NoneType`), or anything else together with its Python type name. -/
inductive YVal where
  | vstr (s : String)
  | vnull
  | vother (typeName : String)
deriving DecidableEq, Repr

/-- Outcome of `yaml.safe_load` on the frontmatter text. -/
inductive YamlOut where
  | perr (msg : String)
  | nondict
  | ydict (entries : List (String × YVal))
deriving DecidableEq, Repr

/-- State of one of the three resource directories (`scripts/`,
`references/`, `assets/`): absent, present as a non-directory, or a
directory that is empty or not. -/
inductive DirEntry where
  | missing
  | file
  | emptyDir
  | filledDir
deriving DecidableEq, Repr

/-- Outcome of `skill_md.read_text()` (lines 50-53): the file content, or
the message of the exception the read raised. -/
inductive FileRead where
  | ok (content : String)
  | err (e : String)
deriving DecidableEq, Repr

/-- The directory state `validate_skill` queries.  `dirName` stands for
both `skill_path.name` (the final component, compared with the skill name)
and the path rendered into the two not-found messages. -/
structure SkillDir where
  pathExists : Bool
  pathIsDir : Bool
  dirName : String
  skillMd : Option FileRead
  readmeExists : Bool
  changelogExists : Bool
  installationExists : Bool
  quickRefExists : Bool
  scriptsDir : DirEntry
  referencesDir : DirEntry
  assetsDir : DirEntry
deriving DecidableEq, Repr

/-- Python's `str.strip()` (ASCII whitespace). -/
def pyStrip (s : String) : String :=
  String.mk (((s.data.dropWhile pyWs).reverse.dropWhile pyWs).reverse)

def leadsWith : List Char → List Char → Bool
  | [], _ => true
  | _ :: _, [] => false
  | a :: as, b :: bs => a == b && leadsWith as bs

def listInfix (needle : List Char) : List Char → Bool
  | [] => leadsWith needle []
  | c :: cs => leadsWith needle (c :: cs) || listInfix needle cs

/-- Python's `needle in hay` on strings. -/
def strContains (hay needle : String) : Bool := listInfix needle.data hay.data

def insertSorted (x : String) : List String → List String
  | [] => [x]
  | y :: ys => if x < y then x :: y :: ys else y :: insertSorted x ys

/-- Python's `sorted` on a list of strings. -/
def sortStrings (l : List String) : List String := l.foldr insertSorted []

/-- Removing duplicates (the passage through Python's `set`). -/
def dedupStr : List String → List String
  | [] => []
  | x :: xs => if (dedupStr xs).contains x then dedupStr xs else x :: dedupStr xs

/-- Python's `sep.join(strs)`. -/
def joinSep (sep : String) : List String → String
  | [] => ""
  | [x] => x
  | x :: xs => x ++ sep ++ joinSep sep xs

def ALLOWED_PROPERTIES : List String :=
  ["name", "description", "required-capability", "allowed-tools", "metadata"]

def VALID_CAPABILITIES : List String :=
  ["coding", "reasoning", "creative", "fast", "secure", "vision", "audio", "cli", "long_ctx"]

/-- `content.startswith("---")` (quick_validate.py line 56). -/
def startsDashes : List Char → Bool
  | a :: b :: c :: _ => a == '-' && b == '-' && c == '-'
  | _ => false

/-- Find the first occurrence of a newline followed by `---`; return the
text before it and the text after the `---`.  This is the lazy `(.*?)`
followed by the closing delimiter in `re.match(r"^---\n(.*?)\n---", ...)`
with `re.DOTALL` (line 60). -/
def findMarker : List Char → Option (List Char × List Char)
  | [] => none
  | c :: cs =>
    if c == '\n' && startsDashes cs then some ([], cs.drop 3)
    else (findMarker cs).map (fun pr => (c :: pr.1, pr.2))

/-- The frontmatter extraction of lines 60-65: the anchored `---` and
newline, the lazy frontmatter text, the closing `\n---`; the second
component is `content[match.end():]`, still unstripped. -/
def splitFrontmatter (content : String) : Option (String × String) :=
  match content.data with
  | '-' :: '-' :: '-' :: '\n' :: rest =>
    (findMarker rest).map (fun pr => (String.mk pr.1, String.mk pr.2))
  | _ => none

def kebabChar (c : Char) : Bool := ('a' ≤ c && c ≤ 'z') || ('0' ≤ c && c ≤ '9')

def kebabAux : List Char → Bool → Bool
  | [], afterChar => afterChar
  | c :: cs, afterChar =>
    if c == '-' then afterChar && kebabAux cs false
    else kebabChar c && kebabAux cs true

/-- `re.match(r"^[a-z0-9]+(-[a-z0-9]+)*$", name)` (line 96): nonempty
hyphen-separated groups of lowercase letters and digits. -/
def isKebab (s : String) : Bool := kebabAux s.data false

/-- The `required-capability` check (lines 132-140): `frontmatter.get`
yields `None` both when the key is absent and when its value is YAML null,
and the check is skipped for `None`. -/
def capCheck (fm : List (String × YVal)) : Option String :=
  match List.lookup "required-capability" fm with
  | some (.vother t) => some ("required-capability must be a string, got " ++ t)
  | some (.vstr c) =>
    if VALID_CAPABILITIES.contains c then none
    else some ("Invalid required-capability '" ++ c ++ "'. Valid options: " ++
      joinSep ", " (sortStrings VALID_CAPABILITIES))
  | _ => none

/-- The fatal checks of lines 44-145 applied to the `SKILL.md` state: each
`return False, msg` becomes `.error msg`; surviving them all yields the
stripped name, description and body used by the warning-collecting tail. -/
def mdChain (yaml : String → YamlOut) (md : Option FileRead) :
    Except String (String × String × String) :=
  match md with
  | none => .error "SKILL.md not found"
  | some (.err e) => .error ("Failed to read SKILL.md: " ++ e)
  | some (.ok content) =>
    if startsDashes content.data = false then
      .error "No YAML frontmatter found (must start with ---)"
    else match splitFrontmatter content with
    | none => .error "Invalid frontmatter format (missing closing ---)"
    | some (fmText, rest) =>
      match yaml fmText with
      | .perr e => .error ("Invalid YAML in frontmatter: " ++ e)
      | .nondict => .error "Frontmatter must be a YAML dictionary"
      | .ydict fm =>
        let unexpected := dedupStr ((fm.map Prod.fst).filter fun k => ! ALLOWED_PROPERTIES.contains k)
        if unexpected ≠ [] then
          .error ("Unexpected key(s) in frontmatter: " ++ joinSep ", " (sortStrings unexpected) ++
            ". Allowed: " ++ joinSep ", " (sortStrings ALLOWED_PROPERTIES))
        else match List.lookup "name" fm with
        | none => .error "Missing 'name' in frontmatter"
        | some .vnull => .error "Name must be a string, got NoneType"
        | some (.vother t) => .error ("Name must be a string, got " ++ t)
        | some (.vstr rawName) =>
          let name := pyStrip rawName
          if name = "" then .error "Name cannot be empty"
          else if isKebab name = false then
            .error ("Name '" ++ name ++ "' must be kebab-case (lowercase letters, digits, hyphens)")
          else if 64 < name.length then
            .error ("Name too long (" ++ toString name.length ++ " chars). Maximum is 64.")
          else match List.lookup "description" fm with
          | none => .error "Missing 'description' in frontmatter"
          | some .vnull => .error "Description must be a string, got NoneType"
          | some (.vother t) => .error ("Description must be a string, got " ++ t)
          | some (.vstr rawDesc) =>
            let desc := pyStrip rawDesc
            if desc = "" then .error "Description cannot be empty"
            else if 1024 < desc.length then
              .error ("Description too long (" ++ toString desc.length ++ " chars). Maximum is 1024.")
            else if strContains desc "<" || strContains desc ">" then
              .error "Description cannot contain angle brackets (< or >)"
            else if strContains desc "[TODO" || strContains desc "TODO:" then
              .error "Description contains TODO placeholder - please complete it"
            else match capCheck fm with
            | some e => .error e
            | none =>
              let body := pyStrip rest
              if body = "" then .error "SKILL.md body is empty"
              else .ok (name, desc, body)

def countNl (s : String) : Nat := s.data.countP (· == '\n')

/-- The warnings the `warnings` list holds at the successful return (lines
104, 119, 147-174), in append order. -/
def passWarnings (name desc body : String) (d : SkillDir) : List String :=
  (if name ≠ d.dirName then
    ["Name '" ++ name ++ "' doesn't match directory '" ++ d.dirName ++ "'"] else []) ++
  (if desc.length < 20 then
    ["Description is very short. Consider being more descriptive."] else []) ++
  (if body.length < 50 then
    ["SKILL.md body is very short. Consider adding more guidance."] else []) ++
  (if strContains body "[TODO" then
    ["Body contains [TODO] placeholders - consider completing them"] else []) ++
  (if 500 < countNl body + 1 then
    ["SKILL.md is " ++ toString (countNl body + 1) ++ " lines. Consider splitting into references/"]
   else []) ++
  (if d.readmeExists then ["Unnecessary file found: README.md"] else []) ++
  (if d.changelogExists then ["Unnecessary file found: CHANGELOG.md"] else []) ++
  (if d.installationExists then ["Unnecessary file found: INSTALLATION.md"] else []) ++
  (if d.quickRefExists then ["Unnecessary file found: QUICK_REFERENCE.md"] else []) ++
  (if d.scriptsDir = DirEntry.emptyDir then
    ["Empty directory: scripts/ - consider removing if not needed"] else []) ++
  (if d.referencesDir = DirEntry.emptyDir then
    ["Empty directory: references/ - consider removing if not needed"] else []) ++
  (if d.assetsDir = DirEntry.emptyDir then
    ["Empty directory: assets/ - consider removing if not needed"] else [])

/-- The result-message assembly of lines 176-181. -/
def renderPass (ws : List String) : String :=
  if ws = [] then "Skill is valid!"
  else "Skill is valid with warnings:\n  - " ++ joinSep "\n  - " ws

/-- Lines 37-42 and then the `SKILL.md` chain. -/
def fatalCheck (yaml : String → YamlOut) (dirName : String) (pe pid : Bool)
    (md : Option FileRead) : Except String (String × String × String) :=
  if pe = false then .error ("Skill directory not found: " ++ dirName)
  else if pid = false then .error ("Path is not a directory: " ++ dirName)
  else mdChain yaml md

/-- `validate_skill` (quick_validate.py lines 27-181): the pair
`(is_valid, message)` it returns. -/
def validate_skill (yaml : String → YamlOut) (d : SkillDir) : Bool × String :=
  match fatalCheck yaml d.dirName d.pathExists d.pathIsDir d.skillMd with
  | .error m => (false, m)
  | .ok (n, de, b) => (true, renderPass (passWarnings n de b d))

/-! ### Claim theorems about quick_validate.py -/

/-- What a passing verdict guarantees about the `SKILL.md` state: a
readable file whose frontmatter splits off, parses to a dictionary with
only allowed keys, a non-empty kebab-case name of at most 64 characters, a
non-empty description of at most 1024 characters with no angle brackets
and no TODO placeholder, and a non-empty body after the frontmatter. -/
def mdConditions (yaml : String → YamlOut) (md : Option FileRead) : Prop :=
  ∃ content fmText rest fm,
    md = some (FileRead.ok content) ∧
    splitFrontmatter content = some (fmText, rest) ∧
    yaml fmText = YamlOut.ydict fm ∧
    (∀ k ∈ fm.map Prod.fst, ALLOWED_PROPERTIES.contains k = true) ∧
    (∃ rawName, List.lookup "name" fm = some (YVal.vstr rawName) ∧
      pyStrip rawName ≠ "" ∧ isKebab (pyStrip rawName) = true ∧
      (pyStrip rawName).length ≤ 64) ∧
    (∃ rawDesc, List.lookup "description" fm = some (YVal.vstr rawDesc) ∧
      pyStrip rawDesc ≠ "" ∧ (pyStrip rawDesc).length ≤ 1024 ∧
      strContains (pyStrip rawDesc) "<" = false ∧ strContains (pyStrip rawDesc) ">" = false ∧
      strContains (pyStrip rawDesc) "[TODO" = false ∧
      strContains (pyStrip rawDesc) "TODO:" = false) ∧
    pyStrip rest ≠ ""

lemma dedupStr_nil {l : List String} (h : dedupStr l = []) : l = [] := by
  induction l with
  | nil => rfl
  | cons x xs ih =>
    unfold dedupStr at h
    split at h
    · next hc =>
      rw [h] at hc
      simp at hc
    · simp at h

lemma mdChain_ok_conditions {yaml : String → YamlOut} {md : Option FileRead}
    {n de b : String} (h : mdChain yaml md = Except.ok (n, de, b)) :
    mdConditions yaml md := by
  cases md with
  | none => simp [mdChain] at h
  | some fr =>
    cases fr with
    | err e => simp [mdChain] at h
    | ok content =>
      simp only [mdChain] at h
      split at h
      · simp at h
      · cases hsf : splitFrontmatter content with
        | none => rw [hsf] at h; simp at h
        | some pr =>
          obtain ⟨fmText, rest⟩ := pr
          rw [hsf] at h
          dsimp only at h
          cases hy : yaml fmText with
          | perr e => rw [hy] at h; simp at h
          | nondict => rw [hy] at h; simp at h
          | ydict fm =>
            rw [hy] at h
            dsimp only at h
            split at h
            · simp at h
            · next hunex =>
              cases hn : List.lookup "name" fm with
              | none => rw [hn] at h; simp at h
              | some nv =>
                rw [hn] at h
                cases nv with
                | vnull => simp at h
                | vother t => simp at h
                | vstr rawName =>
                  dsimp only at h
                  split at h
                  · simp at h
                  · next hne =>
                    split at h
                    · simp at h
                    · next hkb =>
                      split at h
                      · simp at h
                      · next hlen =>
                        cases hd : List.lookup "description" fm with
                        | none => rw [hd] at h; simp at h
                        | some dv =>
                          rw [hd] at h
                          cases dv with
                          | vnull => simp at h
                          | vother t => simp at h
                          | vstr rawDesc =>
                            dsimp only at h
                            split at h
                            · simp at h
                            · next hde =>
                              split at h
                              · simp at h
                              · next hdlen =>
                                split at h
                                · simp at h
                                · next hang =>
                                  split at h
                                  · simp at h
                                  · next htodo =>
                                    cases hcap : capCheck fm with
                                    | some e => rw [hcap] at h; simp at h
                                    | none =>
                                      rw [hcap] at h
                                      dsimp only at h
                                      split at h
                                      · simp at h
                                      · next hb =>
                                        have hkb' : isKebab (pyStrip rawName) = true := by
                                          cases hv : isKebab (pyStrip rawName)
                                          · exact absurd hv hkb
                                          · rfl
                                        simp only [Bool.or_eq_true, not_or,
                                          Bool.not_eq_true] at hang htodo
                                        refine ⟨content, fmText, rest, fm, rfl, hsf, hy, ?_,
                                          ⟨rawName, hn, hne, hkb', by omega⟩,
                                          ⟨rawDesc, hd, hde, by omega,
                                            hang.1, hang.2, htodo.1, htodo.2⟩, hb⟩
                                        intro k hk
                                        have hfil := dedupStr_nil (not_not.mp hunex)
                                        have h2 := List.filter_eq_nil_iff.mp hfil k hk
                                        cases hv : ALLOWED_PROPERTIES.contains k
                                        · rw [hv] at h2
                                          simp at h2
                                        · rfl

/-- C10: `validate_skill` returns a passing verdict only if the directory
holds a readable `SKILL.md` whose YAML frontmatter is a dictionary with a
non-empty kebab-case name of at most 64 characters, a non-empty description
of at most 1024 characters free of angle brackets and TODO placeholders,
only allowed frontmatter keys, and a non-empty body after the
frontmatter. -/
theorem c10_pass_only_if (yaml : String → YamlOut) (d : SkillDir)
    (h : (validate_skill yaml d).1 = true) : mdConditions yaml d.skillMd := by
  unfold validate_skill at h
  cases hf : fatalCheck yaml d.dirName d.pathExists d.pathIsDir d.skillMd with
  | error m => rw [hf] at h; simp at h
  | ok t =>
    obtain ⟨n, de, b⟩ := t
    unfold fatalCheck at hf
    split at hf
    · simp at hf
    · split at hf
      · simp at hf
      · exact mdChain_ok_conditions hf

/-- A stub for the external YAML parser: every frontmatter text parses to
the same small dictionary. -/
def yamlStub : String → YamlOut := fun _ =>
  .ydict [("name", .vstr "my-skill"),
          ("description", .vstr "Validates the example skill directory layout for tests.")]

def passDir : SkillDir :=
  ⟨true, true, "my-skill",
   some (.ok "---\nname: my-skill\n---\nUse this skill to check that example skill directories are well formed."),
   false, false, false, false, .missing, .missing, .missing⟩

theorem c10_witness : mdConditions yamlStub passDir.skillMd :=
  c10_pass_only_if yamlStub passDir (by decide)

lemma validate_pass_shape (yaml : String → YamlOut) (d : SkillDir)
    (h : (validate_skill yaml d).1 = true) :
    ∃ n de b, fatalCheck yaml d.dirName d.pathExists d.pathIsDir d.skillMd = Except.ok (n, de, b) ∧
      validate_skill yaml d = (true, renderPass (passWarnings n de b d)) := by
  unfold validate_skill at h ⊢
  cases hf : fatalCheck yaml d.dirName d.pathExists d.pathIsDir d.skillMd with
  | error m => rw [hf] at h; simp at h
  | ok t =>
    obtain ⟨n, de, b⟩ := t
    exact ⟨n, de, b, rfl, rfl⟩

/-- SKILL.md with an empty body (fatal) in a directory that also contains
a README.md (a non-fatal issue the pass path would warn about). -/
def failDir : SkillDir :=
  ⟨true, true, "my-skill", some (.ok "---\nname: my-skill\n---\n"),
   true, false, false, false, .missing, .missing, .missing⟩

/-- The same directory with the body filled in: the only difference is the
fatal defect. -/
def warnDir : SkillDir :=
  ⟨true, true, "my-skill",
   some (.ok "---\nname: my-skill\n---\nUse this skill to check that example skill directories are well formed."),
   true, false, false, false, .missing, .missing, .missing⟩

/-- C8 counterexample: `validate_skill` returns a single message string,
not a list of warning strings; on `failDir` the verdict comes with only the
fatal error, silent about the non-fatal README issue present in the
directory — the issue the same directory with the body fixed (`warnDir`) is
warned about. -/
theorem c8_counterexample :
    validate_skill yamlStub failDir = (false, "SKILL.md body is empty") ∧
    strContains (validate_skill yamlStub failDir).2 "README" = false ∧
    validate_skill yamlStub warnDir =
      (true, "Skill is valid with warnings:\n  - Unnecessary file found: README.md") :=
  ⟨by decide, by decide, by decide⟩

lemma validate_verdict (yaml : String → YamlOut) (d : SkillDir) :
    (validate_skill yaml d).1 =
      (match fatalCheck yaml d.dirName d.pathExists d.pathIsDir d.skillMd with
        | .error _ => false
        | .ok _ => true) := by
  unfold validate_skill
  cases hf : fatalCheck yaml d.dirName d.pathExists d.pathIsDir d.skillMd with
  | error m => rfl
  | ok t =>
    obtain ⟨n, de, b⟩ := t
    rfl

lemma fatalCheck_verdict_invariant (yaml : String → YamlOut) (nm nm' : String)
    (pe pid : Bool) (md : Option FileRead) :
    (match fatalCheck yaml nm pe pid md with | .error _ => false | .ok _ => true) =
    (match fatalCheck yaml nm' pe pid md with | .error _ => false | .ok _ => true) := by
  unfold fatalCheck
  cases pe
  · rfl
  · cases pid
    · rfl
    · rfl

/-- C8 amended: the validator returns a pass/fail verdict together with a
single message string; on a passing verdict the message is the fixed
success text or embeds the warning lines for the non-fatal issues, and the
warning-only inputs (directory name, unnecessary files, resource
directories) never change the verdict.  On a failing verdict only the
fatal error is returned. -/
theorem c8_amended :
    (∀ (yaml : String → YamlOut) (d : SkillDir), (validate_skill yaml d).1 = true →
      (validate_skill yaml d).2 = "Skill is valid!" ∨
      ∃ w ws, (validate_skill yaml d).2 =
        "Skill is valid with warnings:\n  - " ++ joinSep "\n  - " (w :: ws)) ∧
    (∀ (yaml : String → YamlOut) (d : SkillDir) (nm : String) (r c i q : Bool)
        (s rf a : DirEntry),
      (validate_skill yaml
        ⟨d.pathExists, d.pathIsDir, nm, d.skillMd, r, c, i, q, s, rf, a⟩).1 =
      (validate_skill yaml d).1) := by
  constructor
  · intro yaml d h
    obtain ⟨n, de, b, hf, he⟩ := validate_pass_shape yaml d h
    rw [he]
    unfold renderPass
    cases hw : passWarnings n de b d with
    | nil => left; simp
    | cons w ws => exact Or.inr ⟨w, ws, by simp⟩
  · intro yaml d nm r c i q s rf a
    rw [validate_verdict, validate_verdict]
    dsimp only
    exact fatalCheck_verdict_invariant yaml nm d.dirName d.pathExists d.pathIsDir d.skillMd

theorem c8_amended_witness :
    (validate_skill yamlStub warnDir).2 = "Skill is valid!" ∨
    ∃ w ws, (validate_skill yamlStub warnDir).2 =
      "Skill is valid with warnings:\n  - " ++ joinSep "\n  - " (w :: ws) :=
  c8_amended.1 yamlStub warnDir (by decide)

end SwitchAI
